import Mathlib

/-!
Verification of the PixelForge Resolution Matrix frontend logic
(`updateResolutions` in `web/js/pixel_forge.js` and the unnamed variant),
modelled as pure functions over a record of widget value strings.
-/

/-- The fixed aspect-ratio table `ASPECT_RATIOS` of the source: keys
`"1:1"`, `"3:2"`, `"4:3"`, `"16:9"`, `"16:10"` mapped to their
`[w_ratio, h_ratio]` pairs. -/
def ASPECT_RATIOS : List (String × Nat × Nat) :=
  [("1:1", 1, 1), ("3:2", 3, 2), ("4:3", 4, 3), ("16:9", 16, 9), ("16:10", 16, 10)]

/-- `MP_BASE = 1024 * 1024`, the binary megapixel base of the source. -/
def MP_BASE : Nat := 1024 * 1024

/-- Numeric value of a list of decimal digit characters, most significant
first (48 is the code point of the character 0). -/
def digitsVal (ds : List Char) : Nat :=
  ds.foldl (fun n c => n * 10 + (c.toNat - 48)) 0

/-- Models JavaScript `parseInt(s)` as it is applied to the widget value
strings: the longest leading run of decimal digits is parsed; when that
run is empty `parseInt` yields NaN, modelled as `none`.  (The widget
values carry no sign, no leading whitespace and no radix argument, so
this captures `parseInt` on every input the source can feed it.) -/
def parseIntJS (s : String) : Option Nat :=
  let ds := s.data.takeWhile (fun c => c.isDigit)
  if ds.isEmpty then none else some (digitsVal ds)

/-- Models `maxMpStr.split(" ")[0]`: the part of the string before the
first space (the whole string when it contains no space). -/
def firstSpaceToken (s : String) : String :=
  String.mk (s.data.takeWhile (fun c => c != ' '))

/-- The `while (true)` resolution loop of `updateResolutions`:
`w = ratio_w * k`, `h = ratio_h * k`, `total = w * h`; the loop breaks as
soon as `total > maxPixels`, otherwise it swaps the pair when the
orientation is `"portrait"`, pushes it, and continues at `k + div`.
The source loop has no fuel; the explicit fuel bounds the recursion and
is proved sufficient for every terminating run (`enumFrom_spec`). -/
def enumFrom (ratio_w ratio_h div maxPixels : Nat) (ori : String) :
    Nat → Nat → List (Nat × Nat)
  | 0, _ => []
  | fuel + 1, k =>
    if ratio_w * k * (ratio_h * k) > maxPixels then []
    else
      (if ori = "portrait" then (ratio_h * k, ratio_w * k)
       else (ratio_w * k, ratio_h * k)) ::
        enumFrom ratio_w ratio_h div maxPixels ori fuel (k + div)

/-- The resolution enumeration of `updateResolutions`: the loop starts at
`k = div`; fuel `maxPixels + 1` is enough for every terminating run of the
source loop (see `enumFrom_spec` and claim C6). -/
def enumerate (ratio_w ratio_h div maxPixels : Nat) (ori : String) :
    List (Nat × Nat) :=
  enumFrom ratio_w ratio_h div maxPixels ori (maxPixels + 1) div

/-- The mutable part of the `resolution` widget: its `options.values`
list and its current `value`. -/
structure ResolutionWidget where
  optionsValues : List String
  value : String
deriving DecidableEq

/-- The widget values read and written by `updateResolutions`:
`aspect_ratio`, the orientation (`orient` here), `divisible_by` and
`max_megapixels` hold the raw widget value strings; `resolution` is the
dropdown that the routine rewrites. -/
structure NodeState where
  aspect_ratio : String
  orient : String
  divisible_by : String
  max_megapixels : String
  resolution : ResolutionWidget
deriving DecidableEq

/-- The template literal of the source: `w` then the times sign then `h`. -/
def formatRes (p : Nat × Nat) : String :=
  toString p.1 ++ "×" ++ toString p.2

/-- The `updateResolutions` routine.  The source reads the four input
widgets, parses `divisible_by` and the leading token of `max_megapixels`
with `parseInt`, and returns unchanged when the aspect key is not in
`ASPECT_RATIOS` (its first early return).  When one of the two `parseInt`
calls yields NaN the source's later arithmetic is NaN-poisoned (the loop
never breaks); that undefined behaviour is modelled as `none`.  Otherwise
it rebuilds the resolution list (with the `"INVALID"` sentinel when the
list came out empty), keeps the previous `value` when the new list still
contains it, and otherwise takes element 0 of the new list. -/
def updateResolutions (st : NodeState) : Option NodeState :=
  match List.lookup st.aspect_ratio ASPECT_RATIOS with
  | none => some st
  | some (ratio_w, ratio_h) =>
    match parseIntJS st.divisible_by,
          parseIntJS (firstSpaceToken st.max_megapixels) with
    | some div, some maxMp =>
      let maxPixels := maxMp * MP_BASE
      let resolutions := (enumerate ratio_w ratio_h div maxPixels st.orient).map formatRes
      let resolutions := if resolutions.length = 0 then ["INVALID"] else resolutions
      some { st with resolution :=
        { optionsValues := resolutions,
          value := if st.resolution.value ∈ resolutions then st.resolution.value
                   else resolutions.headD "" } }
    | _, _ => none

/-- The number of emitted pairs: the largest `N` with
`ratio_w * (div * N) * (ratio_h * (div * N)) ≤ maxPixels`
(0 when already the first pair is beyond the ceiling);
`kBound_iff` below proves this characterisation. -/
def kBound (ratio_w ratio_h div maxPixels : Nat) : Nat :=
  Nat.sqrt (maxPixels / (ratio_w * ratio_h)) / div

/-- Following the spec's words: the pair realised at multiplier index `m`
(`k = div * m`), swapped when the orientation is portrait. -/
def specPair (ratio_w ratio_h div : Nat) (ori : String) (m : Nat) : Nat × Nat :=
  if ori = "portrait" then (ratio_h * (div * m), ratio_w * (div * m))
  else (ratio_w * (div * m), ratio_h * (div * m))

/-- Following the spec's words (§4.1): the pairs for
`k = div, 2*div, ..., kBound*div`, in strictly increasing order of `k`. -/
def specList (ratio_w ratio_h div maxPixels : Nat) (ori : String) :
    List (Nat × Nat) :=
  (List.range (kBound ratio_w ratio_h div maxPixels)).map
    (fun i => specPair ratio_w ratio_h div ori (i + 1))

/-! ### Characterisation of the enumeration loop -/

/-- Every entry of the aspect table has positive ratio numbers. -/
lemma ASPECT_RATIOS_pos : ∀ p ∈ ASPECT_RATIOS, 0 < p.2.1 ∧ 0 < p.2.2 := by decide

/-- A successful association-list lookup exhibits a member of the list. -/
lemma lookup_mem {α β : Type} [BEq α] [LawfulBEq α] {l : List (α × β)} {a : α}
    {b : β} (h : l.lookup a = some b) : (a, b) ∈ l := by
  induction l with
  | nil => simp [List.lookup] at h
  | cons p l ih =>
    obtain ⟨k, v⟩ := p
    rw [List.lookup] at h
    by_cases hk : a == k
    · simp only [hk] at h
      obtain rfl : v = b := by simpa using h
      obtain rfl : a = k := eq_of_beq hk
      exact List.mem_cons_self _ _
    · simp only [Bool.not_eq_true] at hk
      simp only [hk] at h
      exact List.mem_cons_of_mem _ (ih h)

/-- The loop's pixel total at multiplier `k`, compared with the ceiling,
is equivalent to `k ≤ √(maxPixels / (ratio_w * ratio_h))`. -/
lemma prod_le_iff {ratio_w ratio_h : Nat} (h : 0 < ratio_w * ratio_h)
    (k maxPixels : Nat) :
    ratio_w * k * (ratio_h * k) ≤ maxPixels ↔
      k ≤ Nat.sqrt (maxPixels / (ratio_w * ratio_h)) := by
  rw [show ratio_w * k * (ratio_h * k) = k * k * (ratio_w * ratio_h) by ring,
    Nat.le_sqrt, Nat.le_div_iff_mul_le h]

/-- `kBound` is exactly the last multiplier index whose pair fits. -/
lemma kBound_iff {ratio_w ratio_h div : Nat} (hrw : 0 < ratio_w)
    (hrh : 0 < ratio_h) (hdiv : 0 < div) (maxPixels m : Nat) :
    ratio_w * (div * m) * (ratio_h * (div * m)) ≤ maxPixels ↔
      m ≤ kBound ratio_w ratio_h div maxPixels := by
  rw [prod_le_iff (Nat.mul_pos hrw hrh), kBound, Nat.le_div_iff_mul_le hdiv,
    Nat.mul_comm m div]

/-- The loop, started at multiplier index `j + 1` with enough fuel,
produces exactly the pairs for indices `j + 1, ..., kBound`. -/
lemma enumFrom_eq (ratio_w ratio_h div maxPixels : Nat) (ori : String)
    (hrw : 0 < ratio_w) (hrh : 0 < ratio_h) (hdiv : 0 < div) :
    ∀ fuel j, kBound ratio_w ratio_h div maxPixels ≤ j + fuel →
      enumFrom ratio_w ratio_h div maxPixels ori fuel (div * (j + 1)) =
        (List.range' (j + 1) (kBound ratio_w ratio_h div maxPixels - j)).map
          (specPair ratio_w ratio_h div ori) := by
  intro fuel
  induction fuel with
  | zero =>
    intro j hle
    have h0 : kBound ratio_w ratio_h div maxPixels - j = 0 := by omega
    simp [enumFrom, h0]
  | succ fuel ih =>
    intro j hle
    rw [enumFrom]
    by_cases hgt :
        maxPixels < ratio_w * (div * (j + 1)) * (ratio_h * (div * (j + 1)))
    · have hj : kBound ratio_w ratio_h div maxPixels ≤ j := by
        by_contra hcon
        have h1 : j + 1 ≤ kBound ratio_w ratio_h div maxPixels := by omega
        have := (kBound_iff hrw hrh hdiv maxPixels (j + 1)).mpr h1
        omega
      have h0 : kBound ratio_w ratio_h div maxPixels - j = 0 := by omega
      rw [if_pos hgt, h0]
      simp
    · have hmem : j + 1 ≤ kBound ratio_w ratio_h div maxPixels :=
        (kBound_iff hrw hrh hdiv maxPixels (j + 1)).mp (Nat.le_of_not_lt hgt)
      rw [if_neg hgt]
      have hsub : kBound ratio_w ratio_h div maxPixels - j =
          (kBound ratio_w ratio_h div maxPixels - (j + 1)) + 1 := by omega
      rw [hsub, List.range'_succ, List.map_cons]
      congr 1
      have harg : div * (j + 1) + div = div * (j + 1 + 1) := by ring
      rw [harg]
      exact ih (j + 1) (by omega)

/-- With fuel at least `kBound`, the loop started at `k = div` computes
the spec's list. -/
lemma enumFrom_spec {ratio_w ratio_h div : Nat} (maxPixels : Nat) (ori : String)
    (hrw : 0 < ratio_w) (hrh : 0 < ratio_h) (hdiv : 0 < div) (fuel : Nat)
    (hfuel : kBound ratio_w ratio_h div maxPixels ≤ fuel) :
    enumFrom ratio_w ratio_h div maxPixels ori fuel div =
      specList ratio_w ratio_h div maxPixels ori := by
  have h := enumFrom_eq ratio_w ratio_h div maxPixels ori hrw hrh hdiv fuel 0
    (by omega)
  rw [Nat.zero_add, Nat.mul_one, Nat.sub_zero, List.range'_eq_map_range,
    List.map_map] at h
  rw [h, specList]
  exact List.map_congr_left fun i _ => by
    simp only [Function.comp_apply, Nat.add_comm]

/-- `kBound` never exceeds the pixel ceiling itself. -/
lemma kBound_le_self (ratio_w ratio_h div maxPixels : Nat) :
    kBound ratio_w ratio_h div maxPixels ≤ maxPixels :=
  calc Nat.sqrt (maxPixels / (ratio_w * ratio_h)) / div
      ≤ Nat.sqrt (maxPixels / (ratio_w * ratio_h)) := Nat.div_le_self _ _
    _ ≤ maxPixels / (ratio_w * ratio_h) := Nat.sqrt_le_self _
    _ ≤ maxPixels := Nat.div_le_self _ _

/-- The enumeration of the source equals the spec's list. -/
lemma enumerate_spec {ratio_w ratio_h div : Nat} (maxPixels : Nat)
    (ori : String) (hrw : 0 < ratio_w) (hrh : 0 < ratio_h) (hdiv : 0 < div) :
    enumerate ratio_w ratio_h div maxPixels ori =
      specList ratio_w ratio_h div maxPixels ori :=
  enumFrom_spec maxPixels ori hrw hrh hdiv (maxPixels + 1)
    (Nat.le_trans (kBound_le_self _ _ _ _) (Nat.le_succ _))

/-- The pixel total of an emitted pair does not depend on the portrait
swap. -/
lemma specPair_prod (ratio_w ratio_h div : Nat) (ori : String) (m : Nat) :
    (specPair ratio_w ratio_h div ori m).1 * (specPair ratio_w ratio_h div ori m).2 =
      ratio_w * (div * m) * (ratio_h * (div * m)) := by
  rw [specPair]
  split
  · dsimp only; ring
  · dsimp only

/-- The pixel total is strictly monotone in the multiplier index. -/
lemma prod_strict_mono {ratio_w ratio_h div : Nat} (hrw : 0 < ratio_w)
    (hrh : 0 < ratio_h) (hdiv : 0 < div) {m m' : Nat} (h : m < m') :
    ratio_w * (div * m) * (ratio_h * (div * m)) <
      ratio_w * (div * m') * (ratio_h * (div * m')) := by
  have h1 : div * m < div * m' := (Nat.mul_lt_mul_left hdiv).mpr h
  have h2 : ratio_w * (div * m) < ratio_w * (div * m') :=
    (Nat.mul_lt_mul_left hrw).mpr h1
  have h3 : ratio_h * (div * m) < ratio_h * (div * m') :=
    (Nat.mul_lt_mul_left hrh).mpr h1
  exact mul_lt_mul'' h2 h3 (Nat.zero_le _) (Nat.zero_le _)

/-! ### The claims -/

/-- C1: for every aspect ratio of the fixed table, every positive
`divisible_by` and every positive megapixel limit, `enumerate` produces
exactly the pairs `(w_ratio * k, h_ratio * k)` for
`k = div, 2*div, ..., kBound*div` in strictly increasing order of `k`
(that is the spec's list `specList`), the emitted pairs being swapped to
`(h_ratio * k, w_ratio * k)` when the orientation is portrait; and the
cut-off `kBound` contains exactly the multiplier indices whose pixel
total is within the ceiling, so every fitting pair is emitted and none
beyond the first excess. -/
theorem C1_enumerate_exact (a : String) (ratio_w ratio_h div maxMp : Nat)
    (ori : String) (ha : (a, ratio_w, ratio_h) ∈ ASPECT_RATIOS)
    (hdiv : 0 < div) (_hmp : 0 < maxMp) :
    enumerate ratio_w ratio_h div (maxMp * MP_BASE) ori =
      specList ratio_w ratio_h div (maxMp * MP_BASE) ori ∧
    ∀ m, ratio_w * (div * m) * (ratio_h * (div * m)) ≤ maxMp * MP_BASE ↔
      m ≤ kBound ratio_w ratio_h div (maxMp * MP_BASE) := by
  have hrw : 0 < ratio_w := (ASPECT_RATIOS_pos _ ha).1
  have hrh : 0 < ratio_h := (ASPECT_RATIOS_pos _ ha).2
  exact ⟨enumerate_spec _ _ hrw hrh hdiv, fun m => kBound_iff hrw hrh hdiv _ m⟩

theorem C1_enumerate_exact_witness :
    ((("1:1", 1, 1) ∈ ASPECT_RATIOS) ∧ 0 < 64 ∧ 0 < 1) ∧
    (enumerate 1 1 64 (1 * MP_BASE) "landscape" =
        specList 1 1 64 (1 * MP_BASE) "landscape" ∧
      ∀ m, 1 * (64 * m) * (1 * (64 * m)) ≤ 1 * MP_BASE ↔
        m ≤ kBound 1 1 64 (1 * MP_BASE)) :=
  ⟨⟨by decide, by decide, by decide⟩,
    C1_enumerate_exact "1:1" 1 1 64 1 "landscape" (by decide) (by decide)
      (by decide)⟩

/-- C4: every `(w, h)` in the enumeration has both components divisible by
`div`, pixel total within the ceiling, and exactly the configured aspect
ratio — its reciprocal under portrait (cross-multiplied form). -/
theorem C4_members_valid (a : String) (ratio_w ratio_h div maxMp : Nat)
    (ori : String) (w h : Nat) (ha : (a, ratio_w, ratio_h) ∈ ASPECT_RATIOS)
    (hdiv : 0 < div) (_hmp : 0 < maxMp)
    (hmem : (w, h) ∈ enumerate ratio_w ratio_h div (maxMp * MP_BASE) ori) :
    w % div = 0 ∧ h % div = 0 ∧ w * h ≤ maxMp * MP_BASE ∧
      (if ori = "portrait" then w * ratio_w = h * ratio_h
       else w * ratio_h = h * ratio_w) := by
  have hrw : 0 < ratio_w := (ASPECT_RATIOS_pos _ ha).1
  have hrh : 0 < ratio_h := (ASPECT_RATIOS_pos _ ha).2
  rw [enumerate_spec _ _ hrw hrh hdiv, specList, List.mem_map] at hmem
  obtain ⟨i, hi, hpair⟩ := hmem
  rw [List.mem_range] at hi
  have hle := (kBound_iff hrw hrh hdiv (maxMp * MP_BASE) (i + 1)).mpr hi
  rw [specPair] at hpair
  by_cases hori : ori = "portrait"
  · rw [if_pos hori] at hpair
    simp only [Prod.mk.injEq] at hpair
    obtain ⟨hw, hh⟩ := hpair
    subst hw; subst hh
    refine ⟨?_, ?_, ?_, ?_⟩
    · rw [show ratio_h * (div * (i + 1)) = div * (ratio_h * (i + 1)) by ring]
      exact Nat.mul_mod_right _ _
    · rw [show ratio_w * (div * (i + 1)) = div * (ratio_w * (i + 1)) by ring]
      exact Nat.mul_mod_right _ _
    · rw [show ratio_h * (div * (i + 1)) * (ratio_w * (div * (i + 1))) =
          ratio_w * (div * (i + 1)) * (ratio_h * (div * (i + 1))) by ring]
      exact hle
    · rw [if_pos hori]; ring
  · rw [if_neg hori] at hpair
    simp only [Prod.mk.injEq] at hpair
    obtain ⟨hw, hh⟩ := hpair
    subst hw; subst hh
    refine ⟨?_, ?_, hle, ?_⟩
    · rw [show ratio_w * (div * (i + 1)) = div * (ratio_w * (i + 1)) by ring]
      exact Nat.mul_mod_right _ _
    · rw [show ratio_h * (div * (i + 1)) = div * (ratio_h * (i + 1)) by ring]
      exact Nat.mul_mod_right _ _
    · rw [if_neg hori]; ring

theorem C4_members_valid_witness :
    ((("16:9", 16, 9) ∈ ASPECT_RATIOS) ∧ 0 < 16 ∧ 0 < 2 ∧
      (144, 256) ∈ enumerate 16 9 16 (2 * MP_BASE) "portrait") ∧
    (144 % 16 = 0 ∧ 256 % 16 = 0 ∧ 144 * 256 ≤ 2 * MP_BASE ∧
      (if "portrait" = "portrait" then 144 * 16 = 256 * 9
       else 144 * 9 = 256 * 16)) :=
  ⟨⟨by decide, by decide, by decide, by decide⟩,
    C4_members_valid "16:9" 16 9 16 2 "portrait" 144 256 (by decide)
      (by decide) (by decide) (by decide)⟩

/-- C5: the pixel totals of successive enumerated pairs are strictly
increasing, hence the enumeration contains no duplicates. -/
theorem C5_strictly_increasing (a : String) (ratio_w ratio_h div maxMp : Nat)
    (ori : String) (ha : (a, ratio_w, ratio_h) ∈ ASPECT_RATIOS)
    (hdiv : 0 < div) (_hmp : 0 < maxMp) :
    List.Pairwise (fun p q : Nat × Nat => p.1 * p.2 < q.1 * q.2)
      (enumerate ratio_w ratio_h div (maxMp * MP_BASE) ori) ∧
    (enumerate ratio_w ratio_h div (maxMp * MP_BASE) ori).Nodup := by
  have hrw : 0 < ratio_w := (ASPECT_RATIOS_pos _ ha).1
  have hrh : 0 < ratio_h := (ASPECT_RATIOS_pos _ ha).2
  rw [enumerate_spec _ _ hrw hrh hdiv, specList]
  have hpw : List.Pairwise (fun p q : Nat × Nat => p.1 * p.2 < q.1 * q.2)
      ((List.range (kBound ratio_w ratio_h div (maxMp * MP_BASE))).map
        (fun i => specPair ratio_w ratio_h div ori (i + 1))) := by
    rw [List.pairwise_map]
    refine (List.pairwise_lt_range _).imp ?_
    intro i j hij
    rw [specPair_prod, specPair_prod]
    exact prod_strict_mono hrw hrh hdiv (by omega)
  refine ⟨hpw, hpw.imp ?_⟩
  intro p q hlt heq
  rw [heq] at hlt
  exact Nat.lt_irrefl _ hlt

theorem C5_strictly_increasing_witness :
    ((("3:2", 3, 2) ∈ ASPECT_RATIOS) ∧ 0 < 32 ∧ 0 < 4) ∧
    (List.Pairwise (fun p q : Nat × Nat => p.1 * p.2 < q.1 * q.2)
        (enumerate 3 2 32 (4 * MP_BASE) "landscape") ∧
      (enumerate 3 2 32 (4 * MP_BASE) "landscape").Nodup) :=
  ⟨⟨by decide, by decide, by decide⟩,
    C5_strictly_increasing "3:2" 3 2 32 4 "landscape" (by decide) (by decide)
      (by decide)⟩

/-- C6: the loop terminates — every multiplier `k` beyond
`√(maxPixels / (w_ratio * h_ratio))` makes `w * h` exceed the ceiling,
so the fuelled loop is stable for every fuel of at least
`maxPixels + 1`: it performs only finitely many iterations. -/
theorem C6_termination (a : String) (ratio_w ratio_h div maxMp : Nat)
    (ori : String) (ha : (a, ratio_w, ratio_h) ∈ ASPECT_RATIOS)
    (hdiv : 0 < div) (_hmp : 0 < maxMp) :
    (∀ k, Nat.sqrt (maxMp * MP_BASE / (ratio_w * ratio_h)) < k →
        maxMp * MP_BASE < ratio_w * k * (ratio_h * k)) ∧
    ∀ fuel, maxMp * MP_BASE + 1 ≤ fuel →
        enumFrom ratio_w ratio_h div (maxMp * MP_BASE) ori fuel div =
          enumerate ratio_w ratio_h div (maxMp * MP_BASE) ori := by
  have hrw : 0 < ratio_w := (ASPECT_RATIOS_pos _ ha).1
  have hrh : 0 < ratio_h := (ASPECT_RATIOS_pos _ ha).2
  constructor
  · intro k hk
    by_contra hcon
    have := (prod_le_iff (Nat.mul_pos hrw hrh) k _).mp (Nat.le_of_not_lt hcon)
    omega
  · intro fuel hfuel
    have hb := kBound_le_self ratio_w ratio_h div (maxMp * MP_BASE)
    rw [enumFrom_spec _ _ hrw hrh hdiv fuel (by omega),
      enumerate_spec _ _ hrw hrh hdiv]

theorem C6_termination_witness :
    ((("4:3", 4, 3) ∈ ASPECT_RATIOS) ∧ 0 < 16 ∧ 0 < 1) ∧
    ((∀ k, Nat.sqrt (1 * MP_BASE / (4 * 3)) < k →
        1 * MP_BASE < 4 * k * (3 * k)) ∧
      ∀ fuel, 1 * MP_BASE + 1 ≤ fuel →
        enumFrom 4 3 16 (1 * MP_BASE) "landscape" fuel 16 =
          enumerate 4 3 16 (1 * MP_BASE) "landscape") :=
  ⟨⟨by decide, by decide, by decide⟩,
    C6_termination "4:3" 4 3 16 1 "landscape" (by decide) (by decide)
      (by decide)⟩

/-- C7: for aspect 1:1, landscape, `divisible_by = 64`,
`max_megapixels = 1`, the enumeration is exactly the sixteen squares
64×64 up to 1024×1024; the ceiling is 1,048,576, the pair 1024×1024
(product exactly 1,048,576) is included and 1088×1088 is excluded. -/
theorem C7_example_square_64 :
    enumerate 1 1 64 (1 * MP_BASE) "landscape" =
      [(64, 64), (128, 128), (192, 192), (256, 256), (320, 320), (384, 384),
       (448, 448), (512, 512), (576, 576), (640, 640), (704, 704), (768, 768),
       (832, 832), (896, 896), (960, 960), (1024, 1024)] ∧
    1 * MP_BASE = 1048576 ∧
    (1024, 1024) ∈ enumerate 1 1 64 (1 * MP_BASE) "landscape" ∧
    (1088, 1088) ∉ enumerate 1 1 64 (1 * MP_BASE) "landscape" ∧
    1024 * 1024 = 1048576 ∧ 1048576 < 1088 * 1088 := by decide

/-! ### Helpers for the host-level claims -/

/-- Membership in the aspect table determines the lookup result (the
table's keys are distinct). -/
lemma lookup_of_mem {a : String} {r : Nat × Nat}
    (ha : (a, r) ∈ ASPECT_RATIOS) : List.lookup a ASPECT_RATIOS = some r := by
  fin_cases ha
  · rfl
  · rfl
  · rfl
  · rfl
  · rfl

/-- A formatted resolution string is never the sentinel `"INVALID"`:
it always contains the times sign. -/
lemma formatRes_ne_INVALID (p : Nat × Nat) : formatRes p ≠ "INVALID" := by
  intro h
  have hd : ('×' : Char) ∈ (formatRes p).data := by
    rw [formatRes, String.data_append, String.data_append]
    exact List.mem_append.mpr (Or.inl (List.mem_append.mpr (Or.inr (by decide))))
  rw [h] at hd
  exact absurd hd (by decide)

/-- `takeWhile` walks through a block whose elements all satisfy the
predicate. -/
lemma takeWhile_append_of_all {α : Type} (p : α → Bool) {l₁ : List α}
    (l₂ : List α) (h : ∀ a ∈ l₁, p a = true) :
    List.takeWhile p (l₁ ++ l₂) = l₁ ++ List.takeWhile p l₂ := by
  induction l₁ with
  | nil => rfl
  | cons x l ih =>
    rw [List.cons_append, List.takeWhile_cons,
      if_pos (h x (List.mem_cons_self _ _)), List.cons_append,
      ih fun a hal => h a (List.mem_cons_of_mem _ hal)]

/-- `takeWhile` stops exactly at the first failing element. -/
lemma takeWhile_append_stop {α : Type} (p : α → Bool) {l₁ : List α} {x : α}
    (l₂ : List α) (h : ∀ a ∈ l₁, p a = true) (hx : p x = false) :
    List.takeWhile p (l₁ ++ x :: l₂) = l₁ := by
  rw [takeWhile_append_of_all p _ h, List.takeWhile_cons, hx]
  simp

/-- A decimal digit character is not the space character. -/
lemma isDigit_ne_space {c : Char} (h : c.isDigit = true) : (c != ' ') = true := by
  cases hc : c == ' '
  · simp [bne, hc]
  · obtain rfl := eq_of_beq hc
    exact absurd h (by decide)

/-! ### The remaining claims -/

/-- C2 (amended): when the orientation is square — indeed any value other
than `"portrait"` — the loop reports no error and emits exactly the
landscape-realised dimensions: the swap branch compares against
`"portrait"` only.  In particular, for a 1:1 aspect under square
orientation the orientation handling is a no-op. -/
theorem C2_square_is_landscape (ratio_w ratio_h div maxPixels : Nat)
    (ori : String) (fuel k : Nat) (hori : ori ≠ "portrait") :
    enumFrom ratio_w ratio_h div maxPixels ori fuel k =
      enumFrom ratio_w ratio_h div maxPixels "landscape" fuel k := by
  induction fuel generalizing k with
  | zero => rfl
  | succ fuel ih =>
    rw [enumFrom, enumFrom]
    by_cases hgt : maxPixels < ratio_w * k * (ratio_h * k)
    · rw [if_pos hgt, if_pos hgt]
    · rw [if_neg hgt, if_neg hgt, if_neg hori,
        if_neg (by decide : ¬("landscape" = "portrait")), ih]

theorem C2_square_is_landscape_witness :
    ("square" ≠ "portrait") ∧
    enumFrom 3 2 16 (1 * MP_BASE) "square" 5 16 =
      enumFrom 3 2 16 (1 * MP_BASE) "landscape" 5 16 :=
  ⟨by decide,
    C2_square_is_landscape 3 2 16 (1 * MP_BASE) "square" 5 16 (by decide)⟩

/-- C2, the claim as frozen, is false on the code: at aspect 3:2 under
orientation `"square"` the enumeration reports no `UnsupportedOption`
error — it silently emits the landscape-realised dimensions, starting
with 48×32. -/
theorem C2_counterexample :
    enumerate 3 2 16 (1 * MP_BASE) "square" =
      enumerate 3 2 16 (1 * MP_BASE) "landscape" ∧
    enumerate 3 2 16 (1 * MP_BASE) "square" ≠ [] ∧
    (enumerate 3 2 16 (1 * MP_BASE) "square").headD (0, 0) = (48, 32) := by
  decide

/-- C3: the enumeration is empty exactly when already the first pair
(`k = divisible_by`) exceeds the ceiling, and in exactly that case the
list surfaced in the resolution widget is the single sentinel entry
`"INVALID"` — not a crash and not an empty list. -/
theorem C3_empty_iff_INVALID (a : String) (ratio_w ratio_h div maxMp : Nat)
    (ori : String) (st st' : NodeState)
    (ha : (a, ratio_w, ratio_h) ∈ ASPECT_RATIOS) (hdiv : 0 < div)
    (_hmp : 0 < maxMp) (hstA : st.aspect_ratio = a) (hstO : st.orient = ori)
    (hstD : parseIntJS st.divisible_by = some div)
    (hstM : parseIntJS (firstSpaceToken st.max_megapixels) = some maxMp)
    (hupd : updateResolutions st = some st') :
    (enumerate ratio_w ratio_h div (maxMp * MP_BASE) ori = [] ↔
      maxMp * MP_BASE < ratio_w * div * (ratio_h * div)) ∧
    (st'.resolution.optionsValues = ["INVALID"] ↔
      maxMp * MP_BASE < ratio_w * div * (ratio_h * div)) := by
  have hrw : 0 < ratio_w := (ASPECT_RATIOS_pos _ ha).1
  have hrh : 0 < ratio_h := (ASPECT_RATIOS_pos _ ha).2
  have h1 := kBound_iff hrw hrh hdiv (maxMp * MP_BASE) 1
  rw [Nat.mul_one] at h1
  have hiff : enumerate ratio_w ratio_h div (maxMp * MP_BASE) ori = [] ↔
      maxMp * MP_BASE < ratio_w * div * (ratio_h * div) := by
    rw [enumerate_spec _ _ hrw hrh hdiv, specList, List.map_eq_nil_iff,
      List.range_eq_nil]
    constructor
    · intro hk
      exact Nat.not_le.mp fun hle => by have := h1.mp hle; omega
    · intro hlt
      have : ¬1 ≤ kBound ratio_w ratio_h div (maxMp * MP_BASE) := fun hk =>
        absurd (h1.mpr hk) (Nat.not_le.mpr hlt)
      omega
  refine ⟨hiff, ?_⟩
  simp only [updateResolutions, hstA, lookup_of_mem ha, hstD, hstM, hstO]
    at hupd
  obtain rfl : _ = st' := Option.some.inj hupd
  by_cases hemp : enumerate ratio_w ratio_h div (maxMp * MP_BASE) ori = []
  · rw [hemp]
    exact iff_of_true (by simp) (hiff.mp hemp)
  · obtain ⟨p, rest, hcons⟩ : ∃ p rest,
        enumerate ratio_w ratio_h div (maxMp * MP_BASE) ori = p :: rest := by
      cases henum : enumerate ratio_w ratio_h div (maxMp * MP_BASE) ori with
      | nil => exact absurd henum hemp
      | cons p rest => exact ⟨p, rest, rfl⟩
    rw [hcons]
    simp only [List.map_cons, List.length_cons]
    constructor
    · intro h
      rw [if_neg (by simp)] at h
      exact absurd (List.head_eq_of_cons_eq h) (formatRes_ne_INVALID p)
    · intro h
      exact absurd (hiff.mpr h) hemp

/-- C8: after a recomputation (the aspect key is recognised, so the list
is rebuilt), the selected value is preserved whenever it is still in the
new list and is the first element of the new (never empty) list
otherwise. -/
theorem C8_selection_reconciliation (st st' : NodeState) (r : Nat × Nat)
    (ha : List.lookup st.aspect_ratio ASPECT_RATIOS = some r)
    (hupd : updateResolutions st = some st') :
    st'.resolution.optionsValues ≠ [] ∧
    (st.resolution.value ∈ st'.resolution.optionsValues →
      st'.resolution.value = st.resolution.value) ∧
    (st.resolution.value ∉ st'.resolution.optionsValues →
      st'.resolution.value = st'.resolution.optionsValues.headD "") := by
  obtain ⟨ratio_w, ratio_h⟩ := r
  simp only [updateResolutions, ha] at hupd
  cases hd : parseIntJS st.divisible_by with
  | none => rw [hd] at hupd; exact absurd hupd (by simp)
  | some div =>
    cases hm : parseIntJS (firstSpaceToken st.max_megapixels) with
    | none => rw [hd, hm] at hupd; exact absurd hupd (by simp)
    | some maxMp =>
      rw [hd, hm] at hupd
      obtain rfl : _ = st' := Option.some.inj hupd
      refine ⟨?_, ?_, ?_⟩
      · by_cases hlen :
            ((enumerate ratio_w ratio_h div (maxMp * MP_BASE) st.orient).map
              formatRes).length = 0
        · simp only [hlen, if_pos]
          simp
        · simp only [if_neg hlen]
          exact fun hnil => hlen (by rw [hnil]; rfl)
      · intro hmem
        exact if_pos hmem
      · intro hmem
        exact if_neg hmem

/-- C9: the effective megapixel ceiling comes from the substring of the
`max_megapixels` widget string before the first space, truncated by
`parseInt` to the integer part of its leading digit run: a decimal token
keeps only the digits before the point, so a fractional setting whose
integer part is 0 yields the ceiling 0 and thereby the `"INVALID"`
sentinel, never a fractional megapixel ceiling. -/
theorem C9_parseInt_truncation (ds : List Char) (rest : String)
    (hne : ds ≠ []) (hdig : ∀ c ∈ ds, c.isDigit = true) :
    parseIntJS (firstSpaceToken (String.mk ds ++ "." ++ rest)) =
      some (digitsVal ds) ∧
    ∀ (st st' : NodeState) (ratio_w ratio_h div : Nat),
      st.max_megapixels = String.mk ds ++ "." ++ rest →
      digitsVal ds = 0 →
      List.lookup st.aspect_ratio ASPECT_RATIOS = some (ratio_w, ratio_h) →
      parseIntJS st.divisible_by = some div → 0 < div →
      updateResolutions st = some st' →
      st'.resolution.optionsValues = ["INVALID"] ∧
      st'.resolution.value = "INVALID" := by
  have htok : (firstSpaceToken (String.mk ds ++ "." ++ rest)).data =
      ds ++ '.' :: rest.data.takeWhile (fun c => c != ' ') := by
    rw [firstSpaceToken]
    show List.takeWhile _ (String.mk ds ++ "." ++ rest).data = _
    rw [String.data_append, String.data_append]
    show List.takeWhile _ (ds ++ ['.'] ++ rest.data) = _
    rw [List.append_assoc]
    rw [takeWhile_append_of_all _ _ fun c hc => isDigit_ne_space (hdig c hc)]
    rw [List.singleton_append, List.takeWhile_cons,
      if_pos (by decide : (('.' : Char) != ' ') = true)]
  have hparse : parseIntJS (firstSpaceToken (String.mk ds ++ "." ++ rest)) =
      some (digitsVal ds) := by
    rw [parseIntJS]
    show (if (List.takeWhile _ (firstSpaceToken
        (String.mk ds ++ "." ++ rest)).data).isEmpty then none
      else some (digitsVal _)) = _
    rw [htok, takeWhile_append_stop _ _ hdig
      (by decide : ('.' : Char).isDigit = false)]
    rw [if_neg fun hemp => hne (List.isEmpty_iff.mp hemp)]
  refine ⟨hparse, ?_⟩
  intro st st' ratio_w ratio_h div hmax h0 hlook hdivp hdivpos hupd
  have hrw : 0 < ratio_w := (ASPECT_RATIOS_pos _ (lookup_mem hlook)).1
  have hrh : 0 < ratio_h := (ASPECT_RATIOS_pos _ (lookup_mem hlook)).2
  have hmp : parseIntJS (firstSpaceToken st.max_megapixels) = some 0 := by
    rw [hmax, hparse, h0]
  have henum : enumerate ratio_w ratio_h div (0 * MP_BASE) st.orient = [] := by
    rw [show (0 : Nat) * MP_BASE = 0 from Nat.zero_mul _, enumerate, enumFrom]
    rw [if_pos]
    exact Nat.mul_pos (Nat.mul_pos hrw hdivpos) (Nat.mul_pos hrh hdivpos)
  simp only [updateResolutions, hlook, hdivp, hmp, henum] at hupd
  obtain rfl : _ = st' := Option.some.inj hupd
  refine ⟨by simp, ?_⟩
  by_cases hv : st.resolution.value = "INVALID"
  · simp [hv]
  · simp [hv]

/-- C10: the recomputation writes only the resolution widget; the four
input widget values are read but never changed. -/
theorem C10_inputs_unchanged (st st' : NodeState)
    (hupd : updateResolutions st = some st') :
    st'.aspect_ratio = st.aspect_ratio ∧ st'.orient = st.orient ∧
    st'.divisible_by = st.divisible_by ∧
    st'.max_megapixels = st.max_megapixels := by
  simp only [updateResolutions] at hupd
  cases hL : List.lookup st.aspect_ratio ASPECT_RATIOS with
  | none =>
    rw [hL] at hupd
    obtain rfl : st = st' := Option.some.inj hupd
    exact ⟨rfl, rfl, rfl, rfl⟩
  | some r =>
    obtain ⟨ratio_w, ratio_h⟩ := r
    rw [hL] at hupd
    cases hd : parseIntJS st.divisible_by with
    | none => rw [hd] at hupd; exact absurd hupd (by simp)
    | some div =>
      cases hm : parseIntJS (firstSpaceToken st.max_megapixels) with
      | none => rw [hd, hm] at hupd; exact absurd hupd (by simp)
      | some maxMp =>
        rw [hd, hm] at hupd
        obtain rfl : _ = st' := Option.some.inj hupd
        exact ⟨rfl, rfl, rfl, rfl⟩

theorem C3_empty_iff_INVALID_witness :
    ((("16:10", 16, 10) ∈ ASPECT_RATIOS) ∧ 0 < 512 ∧ 0 < 1 ∧
      (⟨"16:10", "landscape", "512", "1 MP", ⟨[], "x"⟩⟩ :
        NodeState).aspect_ratio = "16:10" ∧
      (⟨"16:10", "landscape", "512", "1 MP", ⟨[], "x"⟩⟩ :
        NodeState).orient = "landscape" ∧
      parseIntJS (⟨"16:10", "landscape", "512", "1 MP", ⟨[], "x"⟩⟩ :
        NodeState).divisible_by = some 512 ∧
      parseIntJS (firstSpaceToken
        (⟨"16:10", "landscape", "512", "1 MP", ⟨[], "x"⟩⟩ :
          NodeState).max_megapixels) = some 1 ∧
      updateResolutions ⟨"16:10", "landscape", "512", "1 MP", ⟨[], "x"⟩⟩ =
        some ⟨"16:10", "landscape", "512", "1 MP",
          ⟨["INVALID"], "INVALID"⟩⟩) ∧
    ((enumerate 16 10 512 (1 * MP_BASE) "landscape" = [] ↔
        1 * MP_BASE < 16 * 512 * (10 * 512)) ∧
      ((⟨"16:10", "landscape", "512", "1 MP", ⟨["INVALID"], "INVALID"⟩⟩ :
          NodeState).resolution.optionsValues = ["INVALID"] ↔
        1 * MP_BASE < 16 * 512 * (10 * 512))) :=
  ⟨⟨by decide, by decide, by decide, by decide, by decide, by decide,
      by decide, by decide⟩,
    C3_empty_iff_INVALID "16:10" 16 10 512 1 "landscape"
      ⟨"16:10", "landscape", "512", "1 MP", ⟨[], "x"⟩⟩
      ⟨"16:10", "landscape", "512", "1 MP", ⟨["INVALID"], "INVALID"⟩⟩
      (by decide) (by decide) (by decide) (by decide) (by decide) (by decide)
      (by decide) (by decide)⟩

theorem C8_selection_reconciliation_witness :
    (List.lookup
        (⟨"1:1", "landscape", "512", "1 MP", ⟨[], "1024×1024"⟩⟩ :
          NodeState).aspect_ratio ASPECT_RATIOS = some (1, 1) ∧
      updateResolutions
          ⟨"1:1", "landscape", "512", "1 MP", ⟨[], "1024×1024"⟩⟩ =
        some ⟨"1:1", "landscape", "512", "1 MP",
          ⟨["512×512", "1024×1024"], "1024×1024"⟩⟩) ∧
    ((⟨"1:1", "landscape", "512", "1 MP",
        ⟨["512×512", "1024×1024"], "1024×1024"⟩⟩ :
          NodeState).resolution.optionsValues ≠ [] ∧
      ((⟨"1:1", "landscape", "512", "1 MP", ⟨[], "1024×1024"⟩⟩ :
          NodeState).resolution.value ∈
        (⟨"1:1", "landscape", "512", "1 MP",
          ⟨["512×512", "1024×1024"], "1024×1024"⟩⟩ :
            NodeState).resolution.optionsValues →
        (⟨"1:1", "landscape", "512", "1 MP",
          ⟨["512×512", "1024×1024"], "1024×1024"⟩⟩ :
            NodeState).resolution.value =
          (⟨"1:1", "landscape", "512", "1 MP", ⟨[], "1024×1024"⟩⟩ :
            NodeState).resolution.value) ∧
      ((⟨"1:1", "landscape", "512", "1 MP", ⟨[], "1024×1024"⟩⟩ :
          NodeState).resolution.value ∉
        (⟨"1:1", "landscape", "512", "1 MP",
          ⟨["512×512", "1024×1024"], "1024×1024"⟩⟩ :
            NodeState).resolution.optionsValues →
        (⟨"1:1", "landscape", "512", "1 MP",
          ⟨["512×512", "1024×1024"], "1024×1024"⟩⟩ :
            NodeState).resolution.value =
          ((⟨"1:1", "landscape", "512", "1 MP",
            ⟨["512×512", "1024×1024"], "1024×1024"⟩⟩ :
              NodeState).resolution.optionsValues).headD "")) :=
  ⟨⟨by decide, by decide⟩,
    C8_selection_reconciliation
      ⟨"1:1", "landscape", "512", "1 MP", ⟨[], "1024×1024"⟩⟩
      ⟨"1:1", "landscape", "512", "1 MP",
        ⟨["512×512", "1024×1024"], "1024×1024"⟩⟩
      (1, 1) (by decide) (by decide)⟩

theorem C9_parseInt_truncation_witness :
    ((['0'] ≠ ([] : List Char)) ∧ (∀ c ∈ ['0'], c.isDigit = true)) ∧
    (parseIntJS (firstSpaceToken (String.mk ['0'] ++ "." ++ "5 MP")) =
        some (digitsVal ['0']) ∧
      ∀ (st st' : NodeState) (ratio_w ratio_h div : Nat),
        st.max_megapixels = String.mk ['0'] ++ "." ++ "5 MP" →
        digitsVal ['0'] = 0 →
        List.lookup st.aspect_ratio ASPECT_RATIOS = some (ratio_w, ratio_h) →
        parseIntJS st.divisible_by = some div → 0 < div →
        updateResolutions st = some st' →
        st'.resolution.optionsValues = ["INVALID"] ∧
        st'.resolution.value = "INVALID") :=
  ⟨⟨by decide, by decide⟩,
    C9_parseInt_truncation ['0'] "5 MP" (by decide) (by decide)⟩

theorem C10_inputs_unchanged_witness :
    updateResolutions ⟨"1:1", "landscape", "512", "1 MP", ⟨[], "y"⟩⟩ =
      some ⟨"1:1", "landscape", "512", "1 MP",
        ⟨["512×512", "1024×1024"], "512×512"⟩⟩ ∧
    ((⟨"1:1", "landscape", "512", "1 MP",
        ⟨["512×512", "1024×1024"], "512×512"⟩⟩ :
          NodeState).aspect_ratio =
        (⟨"1:1", "landscape", "512", "1 MP", ⟨[], "y"⟩⟩ :
          NodeState).aspect_ratio ∧
      (⟨"1:1", "landscape", "512", "1 MP",
        ⟨["512×512", "1024×1024"], "512×512"⟩⟩ : NodeState).orient =
        (⟨"1:1", "landscape", "512", "1 MP", ⟨[], "y"⟩⟩ : NodeState).orient ∧
      (⟨"1:1", "landscape", "512", "1 MP",
        ⟨["512×512", "1024×1024"], "512×512"⟩⟩ : NodeState).divisible_by =
        (⟨"1:1", "landscape", "512", "1 MP", ⟨[], "y"⟩⟩ :
          NodeState).divisible_by ∧
      (⟨"1:1", "landscape", "512", "1 MP",
        ⟨["512×512", "1024×1024"], "512×512"⟩⟩ : NodeState).max_megapixels =
        (⟨"1:1", "landscape", "512", "1 MP", ⟨[], "y"⟩⟩ :
          NodeState).max_megapixels) :=
  ⟨by decide,
    C10_inputs_unchanged ⟨"1:1", "landscape", "512", "1 MP", ⟨[], "y"⟩⟩
      ⟨"1:1", "landscape", "512", "1 MP",
        ⟨["512×512", "1024×1024"], "512×512"⟩⟩ (by decide)⟩
